import Mathlib

/-!
Shallow embedding of `ImageEnabledFirestoreVectorStore.add_images` from
`samples/multimodal/retrievers/firestore/image_enabled_firestore_vectorstore.py`.

The method validates its inputs, then, for each image locator, calls the
embedding service, allocates or reuses a document id, builds a data mapping
with the content, embedding and metadata fields, merge-stages a write into a
client batch, and finally commits the batch.  We model Firestore documents as
association lists of field names to values, the store as a function from
document ids to optional documents, and the batch as the ordered list of
staged writes.  Python iterables are modelled explicitly: `list(image_paths)`
exhausts a one-shot iterator, so the subsequent `for` loop sees no elements.
-/

deriving instance DecidableEq for Except

namespace ImageVS

/-- A Firestore field value as used by this code: strings, embedding vectors
(`Vector(image_embs)`), Python `None` (stored as null), and metadata
dictionaries (modelled as string-to-string association lists). -/
inductive FsValue where
  | str : String → FsValue
  | vector : List Int → FsValue
  | null : FsValue
  | dict : List (String × String) → FsValue
deriving DecidableEq

/-- A Python metadata dictionary, as passed in the `metadatas` argument. -/
abbrev Metadata := List (String × String)

/-- A Firestore document: an association list from field names to values. -/
abbrev Doc := List (String × FsValue)

/-- The collection state: a map from document ids to documents. -/
abbrev Store := String → Option Doc

/-- One staged write of `db_batch.set(doc, data, merge=True)`: the target
document id, the data mapping, and the merge flag. -/
structure BatchWrite where
  docId : String
  data : Doc
  merge : Bool
deriving DecidableEq

/-- Observable side effects of the call: an embedding-service request
(`embedding_service.embed_image`), staging a write into the batch
(`db_batch.set`), and the batch commit (`db_batch.commit`). -/
inductive Event where
  | embedImage : String → Event
  | stageSet : BatchWrite → Event
  | commit : Event
deriving DecidableEq

/-- The external collaborators and configuration of the store object:
the embedding service, the Firestore client's auto-id generator (indexed by
how many ids have been generated so far), and the three configured field
names from `__init__`. -/
structure Env where
  embed_image : String → List Int
  auto_id : Nat → String
  content_field : String
  metadata_field : String
  embedding_field : String

/-- A Python iterable of strings: its elements, and whether it is a one-shot
iterator (a generator) that is exhausted by a full traversal. -/
structure PyIter where
  elems : List String
  oneShot : Bool
deriving DecidableEq

/-- A re-iterable iterable (a Python list). -/
def PyIter.ofList (l : List String) : PyIter := ⟨l, false⟩

/-- A one-shot iterator (a Python generator) over the given elements. -/
def PyIter.gen (l : List String) : PyIter := ⟨l, true⟩

/-- The elements a second traversal of the iterable sees: a one-shot
iterator has been exhausted by `list(image_paths)`. -/
def PyIter.secondPass (it : PyIter) : List String :=
  if it.oneShot then [] else it.elems

/-- Python truthiness of an optional list argument: `None` and `[]` are
falsy, a non-empty list is truthy (as in `not ids`, `if ids`). -/
def pyTruthy {α : Type} : Option (List α) → Bool
  | none => false
  | some l => !l.isEmpty

/-- Set a field of a document, replacing an existing entry in place or
appending a new one (Python dict assignment order). -/
def setField (doc : Doc) (k : String) (v : FsValue) : Doc :=
  match doc with
  | [] => [(k, v)]
  | (k', v') :: rest => if k' = k then (k, v) :: rest else (k', v') :: setField rest k v

/-- Look up a field of a document. -/
def getField (doc : Doc) (k : String) : Option FsValue :=
  match doc with
  | [] => none
  | (k', v') :: rest => if k' = k then some v' else getField rest k

/-- Read a document from the store. -/
def getDoc (s : Store) (id : String) : Option Doc := s id

/-- Write a document into the store. -/
def setDoc (s : Store) (id : String) (d : Doc) : Store :=
  fun x => if x = id then some d else s x

/-- Merge a data mapping into an existing document: each field of the data
is set in order, all other fields of the old document are kept (Firestore
`set` with `merge=True`). -/
def mergeData (old : Doc) (data : Doc) : Doc :=
  data.foldl (fun d kv => setField d kv.1 kv.2) old

/-- Apply one staged write to the store. -/
def applyWrite (s : Store) (w : BatchWrite) : Store :=
  if w.merge then
    setDoc s w.docId (mergeData ((getDoc s w.docId).getD []) w.data)
  else
    setDoc s w.docId w.data

/-- Commit a batch: apply its staged writes in order. -/
def commitBatch (s : Store) (b : List BatchWrite) : Store :=
  b.foldl applyWrite s

/-- The value stored in the metadata field for item `i`:
`metadatas[i] if metadatas else None`. -/
def mdVal (metadatas : Option (List Metadata)) (i : Nat) : FsValue :=
  if pyTruthy metadatas then FsValue.dict (((metadatas.getD []).get? i).getD []) else FsValue.null

/-- The `data` dictionary built for one image: the content field set to the
empty string, the embedding field set to the vector, and the metadata field
set last (later assignments win, as in a Python dict literal). -/
def mkData (env : Env) (image_embs : List Int) (md : FsValue) : Doc :=
  setField (setField (setField [] env.content_field (FsValue.str ""))
    env.embedding_field (FsValue.vector image_embs)) env.metadata_field md

/-- What one loop iteration accumulates. -/
structure LoopOut where
  ids : List String
  batch : List BatchWrite
  events : List Event
  genCount : Nat
deriving DecidableEq

/-- The `for i, image_path in enumerate(image_paths)` loop: embed the image,
allocate (`collection.document(None)`) or reuse (`ids[i]`) a document id,
build the data mapping, and stage a merge write.  `i` is the enumeration
index, `c` the auto-id counter. -/
def addImagesLoop (env : Env) (metadatas : Option (List Metadata))
    (ids : Option (List String)) : List String → Nat → Nat → LoopOut
  | [], _, c => ⟨[], [], [], c⟩
  | image_path :: rest, i, c =>
    let image_embs := env.embed_image image_path
    let docId := if pyTruthy ids then ((ids.getD []).get? i).getD "" else env.auto_id c
    let c' := if pyTruthy ids then c else c + 1
    let w : BatchWrite := ⟨docId, mkData env image_embs (mdVal metadatas i), true⟩
    let out := addImagesLoop env metadatas ids rest (i + 1) c'
    ⟨docId :: out.ids, w :: out.batch,
      Event.embedImage image_path :: Event.stageSet w :: out.events, out.genCount⟩

/-- The message of `ValueError("No images provided ...")`. -/
def errNoImages : String := "No images provided to add to the vector store."

/-- The message of the metadatas length `ValueError`. -/
def errMetadatasLen : String :=
  "The length of metadatas must be the same as the length of images or zero."

/-- The message of the ids length `ValueError`. -/
def errIdsLen : String :=
  "The length of ids must be the same as the length of images or zero."

/-- The outcome of a call to `add_images`: the returned id list or the raised
error, the events performed, the writes staged, and the store and auto-id
counter after the call. -/
structure CallOutcome where
  result : Except String (List String)
  events : List Event
  batch : List BatchWrite
  store : Store
  genCount : Nat

/-- `ImageEnabledFirestoreVectorStore.add_images`.  `genCount` is the
client's auto-id counter and `store` the collection state before the call;
`kwargs` are the extension keyword arguments, which the body never reads. -/
def add_images (env : Env) (genCount : Nat) (store : Store) (image_paths : PyIter)
    (metadatas : Option (List Metadata)) (ids : Option (List String))
    (kwargs : List (String × String)) : CallOutcome :=
  let images_len := image_paths.elems.length
  let ids_len_match := !pyTruthy ids || ((ids.getD []).length == images_len)
  let metadatas_len_match := !pyTruthy metadatas || ((metadatas.getD []).length == images_len)
  if images_len == 0 then
    ⟨.error errNoImages, [], [], store, genCount⟩
  else if !metadatas_len_match then
    ⟨.error errMetadatasLen, [], [], store, genCount⟩
  else if !ids_len_match then
    ⟨.error errIdsLen, [], [], store, genCount⟩
  else
    let out := addImagesLoop env metadatas ids image_paths.secondPass 0 genCount
    ⟨.ok out.ids, out.events ++ [Event.commit], out.batch,
      commitBatch store out.batch, out.genCount⟩

/-- A concrete environment for evaluation: deterministic embeddings and
sequentially numbered auto-ids, default field names. -/
def defaultEnv : Env :=
  { embed_image := fun p => [Int.ofNat p.length]
    auto_id := fun n => String.mk (List.replicate n 'a')
    content_field := "content"
    metadata_field := "metadata"
    embedding_field := "embedding" }

/-- The empty collection. -/
def emptyStore : Store := fun _ => none

/-- A collection holding one document, id "doc1", with a metadata field and an
unrelated field. -/
def c3Store : Store := fun id =>
  if id = "doc1" then
    some [("metadata", FsValue.dict [("k", "v")]), ("extra", FsValue.str "keep")]
  else none

/-- Is the event an embedding-service call? -/
def Event.isEmbed : Event → Bool
  | .embedImage _ => true
  | _ => false

/-- Is the event the staging of a write? -/
def Event.isStage : Event → Bool
  | .stageSet _ => true
  | _ => false

/-! ### Lemmas about documents, the store and batch commits -/

theorem getField_setField_self (d : Doc) (k : String) (v : FsValue) :
    getField (setField d k v) k = some v := by
  induction d with
  | nil => simp [setField, getField]
  | cons kv rest ih =>
    by_cases h : kv.1 = k
    · simp [setField, getField, h]
    · simp [setField, getField, h, ih]

theorem getField_setField_ne (d : Doc) {a b : String} (v : FsValue) (h : a ≠ b) :
    getField (setField d a v) b = getField d b := by
  induction d with
  | nil => simp [setField, getField, h]
  | cons kv rest ih =>
    by_cases hk : kv.1 = a
    · simp [setField, getField, hk, h, ih]
    · simp [setField, getField, hk, ih]

theorem mem_setField {kv : String × FsValue} {d : Doc} {a : String} {v : FsValue}
    (h : kv ∈ setField d a v) : kv ∈ d ∨ kv = (a, v) := by
  induction d with
  | nil => simpa [setField] using h
  | cons kv' rest ih =>
    by_cases hk : kv'.1 = a
    · rw [setField, if_pos hk] at h
      rcases List.mem_cons.mp h with h | h
      · exact Or.inr h
      · exact Or.inl (List.mem_cons_of_mem _ h)
    · rw [setField, if_neg hk] at h
      rcases List.mem_cons.mp h with h | h
      · exact Or.inl (h ▸ List.mem_cons_self _ _)
      · rcases ih h with h | h
        · exact Or.inl (List.mem_cons_of_mem _ h)
        · exact Or.inr h

theorem getField_mergeData_of_not_mem {data : Doc} {k : String}
    (h : ∀ kv ∈ data, kv.1 ≠ k) (old : Doc) :
    getField (mergeData old data) k = getField old k := by
  induction data generalizing old with
  | nil => rfl
  | cons kv rest ih =>
    have hstep : mergeData old (kv :: rest) = mergeData (setField old kv.1 kv.2) rest := rfl
    rw [hstep, ih (fun kv' h' => h kv' (List.mem_cons_of_mem _ h')),
      getField_setField_ne _ _ (h kv (List.mem_cons_self _ _))]

theorem getDoc_setDoc_self (s : Store) (id : String) (d : Doc) :
    getDoc (setDoc s id d) id = some d := by
  simp [getDoc, setDoc]

theorem getDoc_setDoc_ne (s : Store) {a b : String} (d : Doc) (h : b ≠ a) :
    getDoc (setDoc s a d) b = getDoc s b := by
  simp [getDoc, setDoc, h]

theorem getDoc_applyWrite_self (s : Store) (w : BatchWrite) (hw : w.merge = true) :
    getDoc (applyWrite s w) w.docId =
      some (mergeData ((getDoc s w.docId).getD []) w.data) := by
  simp [applyWrite, hw, getDoc_setDoc_self]

theorem getDoc_applyWrite_ne (s : Store) (w : BatchWrite) {id : String}
    (h : id ≠ w.docId) : getDoc (applyWrite s w) id = getDoc s id := by
  unfold applyWrite
  by_cases hw : w.merge <;> simp [hw, getDoc_setDoc_ne _ _ h]

theorem getDoc_commitBatch_of_not_mem {b : List BatchWrite} {id : String}
    (h : id ∉ b.map BatchWrite.docId) (s : Store) :
    getDoc (commitBatch s b) id = getDoc s id := by
  induction b generalizing s with
  | nil => rfl
  | cons w rest ih =>
    have hstep : commitBatch s (w :: rest) = commitBatch (applyWrite s w) rest := rfl
    have h1 : id ≠ w.docId := fun he => h (by simp [he])
    have h2 : id ∉ rest.map BatchWrite.docId := fun hm => h (by simp [hm])
    rw [hstep, ih h2, getDoc_applyWrite_ne _ _ h1]

theorem isSome_getDoc_applyWrite (s : Store) (w : BatchWrite) {id : String}
    (h : (getDoc s id).isSome = true) : (getDoc (applyWrite s w) id).isSome = true := by
  by_cases he : id = w.docId
  · subst he
    unfold applyWrite
    by_cases hw : w.merge <;> simp [hw, getDoc_setDoc_self]
  · rw [getDoc_applyWrite_ne _ _ he]; exact h

theorem isSome_getDoc_commitBatch {b : List BatchWrite} {id : String} (s : Store)
    (h : (getDoc s id).isSome = true) :
    (getDoc (commitBatch s b) id).isSome = true := by
  induction b generalizing s with
  | nil => exact h
  | cons w rest ih =>
    have hstep : commitBatch s (w :: rest) = commitBatch (applyWrite s w) rest := rfl
    rw [hstep]
    exact ih _ (isSome_getDoc_applyWrite s w h)

theorem isSome_getDoc_commitBatch_of_mem {b : List BatchWrite} {w : BatchWrite}
    (hw : w ∈ b) (s : Store) :
    (getDoc (commitBatch s b) w.docId).isSome = true := by
  induction b generalizing s with
  | nil => cases hw
  | cons w' rest ih =>
    have hstep : commitBatch s (w' :: rest) = commitBatch (applyWrite s w') rest := rfl
    rw [hstep]
    rcases List.mem_cons.mp hw with h | h
    · subst h
      apply isSome_getDoc_commitBatch
      by_cases hm : w.merge
      · rw [getDoc_applyWrite_self s w hm]; rfl
      · have : w.merge = false := by simpa using hm
        unfold applyWrite
        rw [this]
        simp [getDoc_setDoc_self]
    · exact ih h _

theorem getDoc_commitBatch_of_nodup {b : List BatchWrite}
    (hnd : (b.map BatchWrite.docId).Nodup) (hm : ∀ w ∈ b, w.merge = true) :
    ∀ w ∈ b, ∀ s : Store,
      getDoc (commitBatch s b) w.docId =
        some (mergeData ((getDoc s w.docId).getD []) w.data) := by
  induction b with
  | nil => intro w hw; cases hw
  | cons w' rest ih =>
    intro w hw s
    have hstep : commitBatch s (w' :: rest) = commitBatch (applyWrite s w') rest := rfl
    have hnd' : (rest.map BatchWrite.docId).Nodup := (List.nodup_cons.mp hnd).2
    have hhead : w'.docId ∉ rest.map BatchWrite.docId := (List.nodup_cons.mp hnd).1
    rcases List.mem_cons.mp hw with h | h
    · subst h
      rw [hstep, getDoc_commitBatch_of_not_mem hhead,
        getDoc_applyWrite_self s w (hm w (List.mem_cons_self _ _))]
    · have hne : w.docId ≠ w'.docId := by
        intro he
        exact hhead (he ▸ List.mem_map_of_mem BatchWrite.docId h)
      rw [hstep, ih hnd' (fun x hx => hm x (List.mem_cons_of_mem _ hx)) w h,
        getDoc_applyWrite_ne _ _ hne]

theorem getField_commitBatch_frame {b : List BatchWrite} {k : String}
    (hm : ∀ w ∈ b, w.merge = true) (hk : ∀ w ∈ b, ∀ kv ∈ w.data, kv.1 ≠ k) :
    ∀ (s : Store) (id : String),
      getField ((getDoc (commitBatch s b) id).getD []) k =
        getField ((getDoc s id).getD []) k := by
  induction b with
  | nil => intro s id; rfl
  | cons w rest ih =>
    intro s id
    have hstep : commitBatch s (w :: rest) = commitBatch (applyWrite s w) rest := rfl
    rw [hstep, ih (fun x hx => hm x (List.mem_cons_of_mem _ hx))
      (fun x hx => hk x (List.mem_cons_of_mem _ hx))]
    by_cases he : id = w.docId
    · subst he
      rw [getDoc_applyWrite_self s w (hm w (List.mem_cons_self _ _))]
      exact getField_mergeData_of_not_mem (hk w (List.mem_cons_self _ _)) _
    · rw [getDoc_applyWrite_ne _ _ he]

/-! ### Lemmas about the data mapping built for one image -/

theorem getField_mkData_metadata (env : Env) (e : List Int) (md : FsValue) :
    getField (mkData env e md) env.metadata_field = some md :=
  getField_setField_self _ _ _

theorem getField_mkData_content (env : Env) (e : List Int) (md : FsValue)
    (hce : env.content_field ≠ env.embedding_field)
    (hcm : env.content_field ≠ env.metadata_field) :
    getField (mkData env e md) env.content_field = some (FsValue.str "") := by
  unfold mkData
  rw [getField_setField_ne _ _ (Ne.symm hcm), getField_setField_ne _ _ (Ne.symm hce),
    getField_setField_self]

theorem getField_mkData_embedding (env : Env) (e : List Int) (md : FsValue)
    (hem : env.embedding_field ≠ env.metadata_field) :
    getField (mkData env e md) env.embedding_field = some (FsValue.vector e) := by
  unfold mkData
  rw [getField_setField_ne _ _ (Ne.symm hem), getField_setField_self]

theorem mem_mkData_key {kv : String × FsValue} {env : Env} {e : List Int} {md : FsValue}
    (h : kv ∈ mkData env e md) :
    kv.1 = env.content_field ∨ kv.1 = env.embedding_field ∨ kv.1 = env.metadata_field := by
  unfold mkData at h
  rcases mem_setField h with h | h
  · rcases mem_setField h with h | h
    · rcases mem_setField h with h | h
      · cases h
      · exact Or.inl (by rw [h])
    · exact Or.inr (Or.inl (by rw [h]))
  · exact Or.inr (Or.inr (by rw [h]))

/-! ### Lemmas about the per-image loop -/

theorem loop_batch_length (env : Env) (m : Option (List Metadata))
    (ids : Option (List String)) (l : List String) :
    ∀ i c, (addImagesLoop env m ids l i c).batch.length = l.length := by
  induction l with
  | nil => intro i c; rfl
  | cons p rest ih => intro i c; simp [addImagesLoop, ih]

theorem loop_ids_eq_map_docId (env : Env) (m : Option (List Metadata))
    (ids : Option (List String)) (l : List String) :
    ∀ i c, (addImagesLoop env m ids l i c).ids =
      (addImagesLoop env m ids l i c).batch.map BatchWrite.docId := by
  induction l with
  | nil => intro i c; rfl
  | cons p rest ih => intro i c; simp [addImagesLoop, ih]

theorem loop_batch_get? (env : Env) (m : Option (List Metadata))
    (ids : Option (List String)) (l : List String) :
    ∀ i c j, (addImagesLoop env m ids l i c).batch.get? j =
      (l.get? j).map (fun p =>
        ⟨if pyTruthy ids then ((ids.getD []).get? (i + j)).getD "" else env.auto_id (c + j),
          mkData env (env.embed_image p) (mdVal m (i + j)), true⟩) := by
  induction l with
  | nil => intro i c j; simp [addImagesLoop]
  | cons p rest ih =>
    intro i c j
    cases j with
    | zero => simp [addImagesLoop]
    | succ j =>
      have h1 : i + 1 + j = i + (j + 1) := by omega
      by_cases ht : pyTruthy ids
      · simp only [addImagesLoop, ht, if_true, List.get?_cons_succ, ih, h1]
      · have ht' : pyTruthy ids = false := by simpa using ht
        have h2 : c + 1 + j = c + (j + 1) := by omega
        simp only [addImagesLoop, ht', Bool.false_eq_true, if_false,
          List.get?_cons_succ, ih, h1, h2]

theorem loop_genCount (env : Env) (m : Option (List Metadata))
    (ids : Option (List String)) (l : List String) :
    ∀ i c, (addImagesLoop env m ids l i c).genCount =
      if pyTruthy ids then c else c + l.length := by
  induction l with
  | nil => intro i c; by_cases ht : pyTruthy ids <;> simp [addImagesLoop, ht]
  | cons p rest ih =>
    intro i c
    by_cases ht : pyTruthy ids
    · simp [addImagesLoop, ht, ih]
    · have ht' : pyTruthy ids = false := by simpa using ht
      simp only [addImagesLoop, ht', Bool.false_eq_true, if_false, ih, List.length_cons]
      omega

theorem loop_ids_of_not_truthy (env : Env) (m : Option (List Metadata))
    (ids : Option (List String)) (ht : pyTruthy ids = false) (l : List String) :
    ∀ i c, (addImagesLoop env m ids l i c).ids =
      (List.range l.length).map (fun j => env.auto_id (c + j)) := by
  induction l with
  | nil => intro i c; rfl
  | cons p rest ih =>
    intro i c
    have h1 : (List.range (p :: rest).length).map (fun j => env.auto_id (c + j)) =
        env.auto_id c :: (List.range rest.length).map (fun j => env.auto_id (c + 1 + j)) := by
      rw [List.length_cons, List.range_succ_eq_map, List.map_cons, List.map_map, Nat.add_zero]
      congr 1
      apply List.map_congr_left
      intro j _
      exact congrArg env.auto_id (by omega)
    rw [h1]
    simp [addImagesLoop, ht, ih]

theorem loop_events_filter_embed (env : Env) (m : Option (List Metadata))
    (ids : Option (List String)) (l : List String) :
    ∀ i c, (addImagesLoop env m ids l i c).events.filter Event.isEmbed =
      l.map Event.embedImage := by
  induction l with
  | nil => intro i c; rfl
  | cons p rest ih =>
    intro i c
    simp [addImagesLoop, List.filter, Event.isEmbed, Event.isStage, ih]

theorem loop_events_no_commit (env : Env) (m : Option (List Metadata))
    (ids : Option (List String)) (l : List String) :
    ∀ i c, Event.commit ∉ (addImagesLoop env m ids l i c).events := by
  induction l with
  | nil => intro i c h; cases h
  | cons p rest ih =>
    intro i c h
    rcases List.mem_cons.mp h with h | h
    · cases h
    · rcases List.mem_cons.mp h with h | h
      · cases h
      · exact ih (i + 1) _ h

theorem loop_events_filter_stage (env : Env) (m : Option (List Metadata))
    (ids : Option (List String)) (l : List String) :
    ∀ i c, (addImagesLoop env m ids l i c).events.filter Event.isStage =
      (addImagesLoop env m ids l i c).batch.map Event.stageSet := by
  induction l with
  | nil => intro i c; rfl
  | cons p rest ih =>
    intro i c
    simp [addImagesLoop, List.filter, Event.isEmbed, Event.isStage, ih]

theorem loop_batch_merge (env : Env) (m : Option (List Metadata))
    (ids : Option (List String)) (l : List String) :
    ∀ i c, ∀ w ∈ (addImagesLoop env m ids l i c).batch,
      w.merge = true ∧ ∃ e md, w.data = mkData env e md := by
  induction l with
  | nil => intro i c w hw; cases hw
  | cons p rest ih =>
    intro i c w hw
    rcases List.mem_cons.mp hw with h | h
    · subst h
      exact ⟨rfl, env.embed_image p, mdVal m i, rfl⟩
    · exact ih (i + 1) _ w h

theorem loop_ids_of_truthy (env : Env) (m : Option (List Metadata)) (L : List String)
    (hT : pyTruthy (some L) = true) (l : List String) (c : Nat) (hlen : L.length = l.length) :
    (addImagesLoop env m (some L) l 0 c).ids = L := by
  apply List.ext
  intro j
  rw [loop_ids_eq_map_docId, List.get?_map, loop_batch_get?]
  simp only [hT, if_true, Option.map_map, Nat.zero_add]
  cases hj : l.get? j with
  | none =>
    have hj' : l.length ≤ j := List.get?_eq_none.mp hj
    have hL : L.get? j = none := List.get?_eq_none.mpr (by omega)
    rw [hL]
    rfl
  | some p =>
    have hj1 : j < l.length := (List.get?_eq_some.mp hj).1
    have hj2 : j < L.length := by omega
    rw [List.get?_eq_get hj2]
    simp [List.getElem?_eq_getElem hj2]

/-! ### Unfolding lemmas for the branches of add_images -/

theorem add_images_ok (env : Env) (genCount : Nat) (store : Store) (it : PyIter)
    (m : Option (List Metadata)) (ids : Option (List String))
    (kwargs : List (String × String))
    (hn : it.elems.length ≠ 0)
    (hm : pyTruthy m = true → (m.getD []).length = it.elems.length)
    (hi : pyTruthy ids = true → (ids.getD []).length = it.elems.length) :
    add_images env genCount store it m ids kwargs =
      ⟨.ok (addImagesLoop env m ids it.secondPass 0 genCount).ids,
        (addImagesLoop env m ids it.secondPass 0 genCount).events ++ [Event.commit],
        (addImagesLoop env m ids it.secondPass 0 genCount).batch,
        commitBatch store (addImagesLoop env m ids it.secondPass 0 genCount).batch,
        (addImagesLoop env m ids it.secondPass 0 genCount).genCount⟩ := by
  have h0 : (it.elems.length == 0) = false := by simp [hn]
  have h1 : (!pyTruthy m || ((m.getD []).length == it.elems.length)) = true := by
    cases hp : pyTruthy m
    · simp
    · simp [hm hp]
  have h2 : (!pyTruthy ids || ((ids.getD []).length == it.elems.length)) = true := by
    cases hp : pyTruthy ids
    · simp
    · simp [hi hp]
  simp only [add_images, h0, h1, h2, Bool.not_true, Bool.false_eq_true, if_false]

theorem add_images_err_empty (env : Env) (genCount : Nat) (store : Store) (it : PyIter)
    (m : Option (List Metadata)) (ids : Option (List String))
    (kwargs : List (String × String)) (hn : it.elems.length = 0) :
    add_images env genCount store it m ids kwargs =
      ⟨.error errNoImages, [], [], store, genCount⟩ := by
  simp [add_images, hn]

theorem add_images_err_md (env : Env) (genCount : Nat) (store : Store) (it : PyIter)
    (m : Option (List Metadata)) (ids : Option (List String))
    (kwargs : List (String × String)) (hn : it.elems.length ≠ 0)
    (hp : pyTruthy m = true) (hlen : (m.getD []).length ≠ it.elems.length) :
    add_images env genCount store it m ids kwargs =
      ⟨.error errMetadatasLen, [], [], store, genCount⟩ := by
  have h0 : (it.elems.length == 0) = false := by simp [hn]
  have h1 : (!pyTruthy m || ((m.getD []).length == it.elems.length)) = false := by
    simp [hp, hlen]
  simp only [add_images, h0, h1, Bool.not_false, Bool.false_eq_true, if_false, if_true]

theorem add_images_err_ids (env : Env) (genCount : Nat) (store : Store) (it : PyIter)
    (m : Option (List Metadata)) (ids : Option (List String))
    (kwargs : List (String × String)) (hn : it.elems.length ≠ 0)
    (hm : pyTruthy m = true → (m.getD []).length = it.elems.length)
    (hp : pyTruthy ids = true) (hlen : (ids.getD []).length ≠ it.elems.length) :
    add_images env genCount store it m ids kwargs =
      ⟨.error errIdsLen, [], [], store, genCount⟩ := by
  have h0 : (it.elems.length == 0) = false := by simp [hn]
  have h1 : (!pyTruthy m || ((m.getD []).length == it.elems.length)) = true := by
    cases hq : pyTruthy m
    · simp
    · simp [hm hq]
  have h2 : (!pyTruthy ids || ((ids.getD []).length == it.elems.length)) = false := by
    simp [hp, hlen]
  simp only [add_images, h0, h1, h2, Bool.not_true, Bool.not_false, Bool.false_eq_true,
    if_false, if_true]

theorem pyTruthy_iff {α : Type} (o : Option (List α)) :
    pyTruthy o = true ↔ ∃ L, o = some L ∧ 0 < L.length := by
  cases o with
  | none => simp [pyTruthy]
  | some L => cases L <;> simp [pyTruthy]

theorem lenMismatch_iff {α : Type} (o : Option (List α)) (n : Nat) :
    (pyTruthy o = true ∧ (o.getD []).length ≠ n) ↔
      ∃ L, o = some L ∧ 0 < L.length ∧ L.length ≠ n := by
  cases o with
  | none => simp [pyTruthy]
  | some L => cases L <;> simp [pyTruthy]

theorem add_images_store_eq (env : Env) (c : Nat) (s : Store) (it : PyIter)
    (m : Option (List Metadata)) (ids : Option (List String))
    (kw : List (String × String)) :
    (add_images env c s it m ids kw).store =
      commitBatch s (add_images env c s it m ids kw).batch := by
  unfold add_images
  dsimp only
  split
  · rfl
  · split
    · rfl
    · split
      · rfl
      · rfl

theorem add_images_batch_cases (env : Env) (c : Nat) (s : Store) (it : PyIter)
    (m : Option (List Metadata)) (ids : Option (List String))
    (kw : List (String × String)) :
    (add_images env c s it m ids kw).batch = [] ∨
      (add_images env c s it m ids kw).batch =
        (addImagesLoop env m ids it.secondPass 0 c).batch := by
  unfold add_images
  dsimp only
  split
  · exact Or.inl rfl
  · split
    · exact Or.inl rfl
    · split
      · exact Or.inl rfl
      · exact Or.inr rfl

theorem add_images_batch_mem (env : Env) (c : Nat) (s : Store) (it : PyIter)
    (m : Option (List Metadata)) (ids : Option (List String))
    (kw : List (String × String)) :
    ∀ w ∈ (add_images env c s it m ids kw).batch,
      ∃ j p, it.secondPass.get? j = some p ∧
        w = ⟨if pyTruthy ids then ((ids.getD []).get? j).getD "" else env.auto_id (c + j),
          mkData env (env.embed_image p) (mdVal m j), true⟩ := by
  intro w hw
  rcases add_images_batch_cases env c s it m ids kw with h | h
  · rw [h] at hw; cases hw
  · rw [h] at hw
    obtain ⟨j, hj⟩ := List.mem_iff_get?.mp hw
    rw [loop_batch_get?] at hj
    cases hp : it.secondPass.get? j with
    | none => rw [hp] at hj; cases hj
    | some p =>
      rw [hp] at hj
      refine ⟨j, p, hp, ?_⟩
      simpa [Nat.zero_add] using hj.symm

theorem mkData_entries (env : Env) (e : List Int) (md : FsValue)
    (hce : env.content_field ≠ env.embedding_field)
    (hcm : env.content_field ≠ env.metadata_field)
    (hem : env.embedding_field ≠ env.metadata_field) :
    mkData env e md = [(env.content_field, FsValue.str ""),
      (env.embedding_field, FsValue.vector e), (env.metadata_field, md)] := by
  simp [mkData, setField, hce, hcm, hem]

theorem getField_mergeData_mkData_content (env : Env) (old : Doc) (e : List Int)
    (md : FsValue) (hce : env.content_field ≠ env.embedding_field)
    (hcm : env.content_field ≠ env.metadata_field)
    (hem : env.embedding_field ≠ env.metadata_field) :
    getField (mergeData old (mkData env e md)) env.content_field =
      some (FsValue.str "") := by
  rw [mkData_entries env e md hce hcm hem]
  show getField (setField (setField (setField old env.content_field (FsValue.str ""))
    env.embedding_field (FsValue.vector e)) env.metadata_field md) env.content_field = _
  rw [getField_setField_ne _ _ (Ne.symm hcm), getField_setField_ne _ _ (Ne.symm hce),
    getField_setField_self]

theorem getField_mergeData_mkData_embedding (env : Env) (old : Doc) (e : List Int)
    (md : FsValue) (hce : env.content_field ≠ env.embedding_field)
    (hcm : env.content_field ≠ env.metadata_field)
    (hem : env.embedding_field ≠ env.metadata_field) :
    getField (mergeData old (mkData env e md)) env.embedding_field =
      some (FsValue.vector e) := by
  rw [mkData_entries env e md hce hcm hem]
  show getField (setField (setField (setField old env.content_field (FsValue.str ""))
    env.embedding_field (FsValue.vector e)) env.metadata_field md) env.embedding_field = _
  rw [getField_setField_ne _ _ (Ne.symm hem), getField_setField_self]

theorem secondPass_ofList (l : List String) : (PyIter.ofList l).secondPass = l := rfl

theorem secondPass_gen (l : List String) : (PyIter.gen l).secondPass = [] := rfl

/-! ### The claims -/

/-- C1 counterexample: a one-shot iterator (a Python generator) yielding one
image is a valid iterable input with no metadata and no ids, yet the call
succeeds with an empty id list and stages no write at all: `len(list(...))`
exhausts the iterator before the `for` loop runs. -/
theorem C1_counterexample :
    (PyIter.gen ["img"]).elems.length = 1 ∧
    (add_images defaultEnv 0 emptyStore (PyIter.gen ["img"]) none none []).result =
      Except.ok [] ∧
    (add_images defaultEnv 0 emptyStore (PyIter.gen ["img"]) none none []).batch = [] := by
  decide

/-- C1 (amended): for every re-iterable iterable (a Python list) yielding
n >= 1 images, with any valid optional metadata and id lists, add_images stages
exactly one write per image into the batch (in input order, with that image's
embedding data), commits the batch as the final action, and returns the list of
the n staged document ids, server-generated where not supplied. -/
theorem C1_add_images_per_image (env : Env) (c : Nat) (s : Store) (l : List String)
    (m : Option (List Metadata)) (ids : Option (List String))
    (kw : List (String × String)) (hn : l ≠ [])
    (hm : pyTruthy m = true → (m.getD []).length = l.length)
    (hi : pyTruthy ids = true → (ids.getD []).length = l.length) :
    (add_images env c s (PyIter.ofList l) m ids kw).result =
      Except.ok
        ((add_images env c s (PyIter.ofList l) m ids kw).batch.map BatchWrite.docId) ∧
    (add_images env c s (PyIter.ofList l) m ids kw).batch.length = l.length ∧
    (∀ j p, l.get? j = some p →
      (add_images env c s (PyIter.ofList l) m ids kw).batch.get? j =
        some ⟨if pyTruthy ids then ((ids.getD []).get? j).getD "" else env.auto_id (c + j),
          mkData env (env.embed_image p) (mdVal m j), true⟩) ∧
    (add_images env c s (PyIter.ofList l) m ids kw).events.getLast? =
      some Event.commit := by
  have hn' : (PyIter.ofList l).elems.length ≠ 0 := by
    simpa [PyIter.ofList, List.length_eq_zero] using hn
  have hsp : (PyIter.ofList l).secondPass = l := rfl
  rw [add_images_ok env c s (PyIter.ofList l) m ids kw hn' (by simpa [PyIter.ofList] using hm)
    (by simpa [PyIter.ofList] using hi)]
  refine ⟨?_, ?_, ?_, ?_⟩
  · rw [hsp, loop_ids_eq_map_docId]
  · rw [hsp, loop_batch_length]
  · intro j p hj
    rw [hsp, loop_batch_get?, hj]
    simp
  · exact List.getLast?_concat _

/-- C1 witness: the amended statement evaluated on the two-image list
["a", "bc"] with no metadata and no ids. -/
theorem C1_add_images_per_image_witness :
    (add_images defaultEnv 0 emptyStore (PyIter.ofList ["a", "bc"]) none none []).result =
      Except.ok ((add_images defaultEnv 0 emptyStore (PyIter.ofList ["a", "bc"]) none none
        []).batch.map BatchWrite.docId) ∧
    (add_images defaultEnv 0 emptyStore (PyIter.ofList ["a", "bc"]) none none
      []).batch.length = (["a", "bc"] : List String).length ∧
    (∀ j p, (["a", "bc"] : List String).get? j = some p →
      (add_images defaultEnv 0 emptyStore (PyIter.ofList ["a", "bc"]) none none
          []).batch.get? j =
        some ⟨if pyTruthy (none : Option (List String)) then
            (((none : Option (List String)).getD []).get? j).getD ""
          else defaultEnv.auto_id (0 + j),
          mkData defaultEnv (defaultEnv.embed_image p) (mdVal none j), true⟩) ∧
    (add_images defaultEnv 0 emptyStore (PyIter.ofList ["a", "bc"]) none none
      []).events.getLast? = some Event.commit :=
  C1_add_images_per_image defaultEnv 0 emptyStore ["a", "bc"] none none []
    (by decide) (by intro h; simp [pyTruthy] at h) (by intro h; simp [pyTruthy] at h)

/-- C2: add_images ends in the rejected-input error exactly when zero images are
supplied, or a metadata list of non-zero length differing from the image count
is supplied, or an id list of non-zero length differing from the image count is
supplied; and on such an error no embedding call or staging event has happened,
no write is staged, and the store and the auto-id counter are unchanged. -/
theorem C2_validation (env : Env) (c : Nat) (s : Store) (it : PyIter)
    (m : Option (List Metadata)) (ids : Option (List String))
    (kw : List (String × String)) :
    ((∃ e, (add_images env c s it m ids kw).result = Except.error e) ↔
      (it.elems.length = 0 ∨
        (∃ M, m = some M ∧ 0 < M.length ∧ M.length ≠ it.elems.length) ∨
        (∃ L, ids = some L ∧ 0 < L.length ∧ L.length ≠ it.elems.length))) ∧
    (∀ e, (add_images env c s it m ids kw).result = Except.error e →
      (add_images env c s it m ids kw).events = [] ∧
      (add_images env c s it m ids kw).batch = [] ∧
      (add_images env c s it m ids kw).store = s ∧
      (add_images env c s it m ids kw).genCount = c) := by
  by_cases h0 : it.elems.length = 0
  · rw [add_images_err_empty env c s it m ids kw h0]
    exact ⟨⟨fun _ => Or.inl h0, fun _ => ⟨errNoImages, rfl⟩⟩,
      fun e _ => ⟨rfl, rfl, rfl, rfl⟩⟩
  · by_cases hb : pyTruthy m = true ∧ (m.getD []).length ≠ it.elems.length
    · rw [add_images_err_md env c s it m ids kw h0 hb.1 hb.2]
      exact ⟨⟨fun _ => Or.inr (Or.inl ((lenMismatch_iff m it.elems.length).mp hb)),
        fun _ => ⟨errMetadatasLen, rfl⟩⟩, fun e _ => ⟨rfl, rfl, rfl, rfl⟩⟩
    · have hm : pyTruthy m = true → (m.getD []).length = it.elems.length := by
        intro hp
        by_contra hne
        exact hb ⟨hp, hne⟩
      by_cases hc : pyTruthy ids = true ∧ (ids.getD []).length ≠ it.elems.length
      · rw [add_images_err_ids env c s it m ids kw h0 hm hc.1 hc.2]
        exact ⟨⟨fun _ => Or.inr (Or.inr ((lenMismatch_iff ids it.elems.length).mp hc)),
          fun _ => ⟨errIdsLen, rfl⟩⟩, fun e _ => ⟨rfl, rfl, rfl, rfl⟩⟩
      · have hi : pyTruthy ids = true → (ids.getD []).length = it.elems.length := by
          intro hp
          by_contra hne
          exact hc ⟨hp, hne⟩
        rw [add_images_ok env c s it m ids kw h0 hm hi]
        constructor
        · constructor
          · rintro ⟨e, he⟩
            cases he
          · rintro (h | h | h)
            · exact absurd h h0
            · exact absurd ((lenMismatch_iff m it.elems.length).mpr h) hb
            · exact absurd ((lenMismatch_iff ids it.elems.length).mpr h) hc
        · intro e he
          cases he

/-- C2 witness: the validation characterization evaluated on an empty image
list: the call errors and has no effects. -/
theorem C2_validation_witness :
    ((∃ e, (add_images defaultEnv 0 emptyStore (PyIter.ofList []) none none []).result =
        Except.error e) ↔
      ((PyIter.ofList []).elems.length = 0 ∨
        (∃ M, (none : Option (List Metadata)) = some M ∧ 0 < M.length ∧
          M.length ≠ (PyIter.ofList []).elems.length) ∨
        (∃ L, (none : Option (List String)) = some L ∧ 0 < L.length ∧
          L.length ≠ (PyIter.ofList []).elems.length))) ∧
    (∀ e, (add_images defaultEnv 0 emptyStore (PyIter.ofList []) none none []).result =
        Except.error e →
      (add_images defaultEnv 0 emptyStore (PyIter.ofList []) none none []).events = [] ∧
      (add_images defaultEnv 0 emptyStore (PyIter.ofList []) none none []).batch = [] ∧
      (add_images defaultEnv 0 emptyStore (PyIter.ofList []) none none []).store =
        emptyStore ∧
      (add_images defaultEnv 0 emptyStore (PyIter.ofList []) none none []).genCount = 0) :=
  C2_validation defaultEnv 0 emptyStore (PyIter.ofList []) none none []

/-- C9: when several preconditions fail at once the errors have a fixed
precedence: zero images always yields the no-images error, and otherwise a
metadata length mismatch yields the metadata error whatever the id list is. -/
theorem C9_error_precedence (env : Env) (c : Nat) (s : Store) (it : PyIter)
    (m : Option (List Metadata)) (ids : Option (List String))
    (kw : List (String × String)) :
    (it.elems.length = 0 →
      (add_images env c s it m ids kw).result = Except.error errNoImages) ∧
    (it.elems.length ≠ 0 → pyTruthy m = true → (m.getD []).length ≠ it.elems.length →
      (add_images env c s it m ids kw).result = Except.error errMetadatasLen) := by
  constructor
  · intro h0
    rw [add_images_err_empty env c s it m ids kw h0]
  · intro h0 hp hlen
    rw [add_images_err_md env c s it m ids kw h0 hp hlen]

/-- C9 witness: on one image with a two-entry metadata list and a two-entry id
list, the metadata error is the one raised. -/
theorem C9_error_precedence_witness :
    ((PyIter.ofList ["a"]).elems.length = 0 →
      (add_images defaultEnv 0 emptyStore (PyIter.ofList ["a"])
        (some [[("k", "1")], [("k", "2")]]) (some ["x", "y"]) []).result =
        Except.error errNoImages) ∧
    ((PyIter.ofList ["a"]).elems.length ≠ 0 →
      pyTruthy (some [[("k", "1")], [("k", "2")]]) = true →
      (((some [[("k", "1")], [("k", "2")]] : Option (List Metadata))).getD []).length ≠
        (PyIter.ofList ["a"]).elems.length →
      (add_images defaultEnv 0 emptyStore (PyIter.ofList ["a"])
        (some [[("k", "1")], [("k", "2")]]) (some ["x", "y"]) []).result =
        Except.error errMetadatasLen) :=
  C9_error_precedence defaultEnv 0 emptyStore (PyIter.ofList ["a"])
    (some [[("k", "1")], [("k", "2")]]) (some ["x", "y"]) []

/-- C3 counterexample: calling add_images with no metadata list on the id of a
pre-existing document does not leave that document's metadata field alone: the
staged record explicitly sets the metadata field to null, so the commit
overwrites the stored mapping with null, while the unrelated field survives the
merge. -/
theorem C3_counterexample :
    getField ((getDoc c3Store "doc1").getD []) "metadata" =
      some (FsValue.dict [("k", "v")]) ∧
    getField ((getDoc (add_images defaultEnv 0 c3Store (PyIter.ofList ["img"]) none
        (some ["doc1"]) []).store "doc1").getD []) "metadata" = some FsValue.null ∧
    getField ((getDoc (add_images defaultEnv 0 c3Store (PyIter.ofList ["img"]) none
        (some ["doc1"]) []).store "doc1").getD []) "extra" =
      some (FsValue.str "keep") := by
  decide

/-- C3 (amended): when no metadata list is supplied, every staged record is a
merge write that explicitly sets the metadata field to null, and the commit
preserves every field of every pre-existing document other than the three
explicitly set fields (content, embedding and metadata); the metadata field
itself is overwritten with null rather than preserved. -/
theorem C3_merge_frame (env : Env) (c : Nat) (s : Store) (it : PyIter)
    (ids : Option (List String)) (kw : List (String × String)) :
    (∀ w ∈ (add_images env c s it none ids kw).batch,
      w.merge = true ∧ getField w.data env.metadata_field = some FsValue.null) ∧
    (∀ k, k ≠ env.content_field → k ≠ env.embedding_field → k ≠ env.metadata_field →
      ∀ id, getField ((getDoc (add_images env c s it none ids kw).store id).getD []) k =
        getField ((getDoc s id).getD []) k) := by
  have hmem := add_images_batch_mem env c s it none ids kw
  constructor
  · intro w hw
    obtain ⟨j, p, hp, rfl⟩ := hmem w hw
    exact ⟨rfl, getField_mkData_metadata env _ _⟩
  · intro k hk1 hk2 hk3 id
    rw [add_images_store_eq]
    apply getField_commitBatch_frame
    · intro w hw
      obtain ⟨j, p, hp, rfl⟩ := hmem w hw
      rfl
    · intro w hw kv hkv
      obtain ⟨j, p, hp, rfl⟩ := hmem w hw
      rcases mem_mkData_key hkv with h | h | h
      · exact fun he => hk1 (he.symm.trans h)
      · exact fun he => hk2 (he.symm.trans h)
      · exact fun he => hk3 (he.symm.trans h)

/-- C3 witness: the amended statement evaluated on the pre-existing document
store and a supplied id. -/
theorem C3_merge_frame_witness :
    (∀ w ∈ (add_images defaultEnv 0 c3Store (PyIter.ofList ["img"]) none (some ["doc1"])
        []).batch,
      w.merge = true ∧
        getField w.data defaultEnv.metadata_field = some FsValue.null) ∧
    (∀ k, k ≠ defaultEnv.content_field → k ≠ defaultEnv.embedding_field →
      k ≠ defaultEnv.metadata_field →
      ∀ id, getField ((getDoc (add_images defaultEnv 0 c3Store (PyIter.ofList ["img"])
          none (some ["doc1"]) []).store id).getD []) k =
        getField ((getDoc c3Store id).getD []) k) :=
  C3_merge_frame defaultEnv 0 c3Store (PyIter.ofList ["img"]) (some ["doc1"]) []

/-- C4: for every non-empty list of image locators with neither metadata nor ids
supplied, add_images succeeds with one returned id per image, and every returned
id is the target of a staged write and denotes a document present in the
committed store. -/
theorem C4_returned_ids_fetchable (env : Env) (c : Nat) (s : Store) (l : List String)
    (kw : List (String × String)) (hn : l ≠ []) :
    ∃ rids, (add_images env c s (PyIter.ofList l) none none kw).result =
        Except.ok rids ∧
      rids.length = l.length ∧
      ∀ id ∈ rids,
        (∃ w ∈ (add_images env c s (PyIter.ofList l) none none kw).batch,
          w.docId = id) ∧
        (getDoc (add_images env c s (PyIter.ofList l) none none kw).store id).isSome =
          true := by
  have hn' : (PyIter.ofList l).elems.length ≠ 0 := by
    simpa [PyIter.ofList, List.length_eq_zero] using hn
  rw [add_images_ok env c s (PyIter.ofList l) none none kw hn'
    (by intro h; simp [pyTruthy] at h) (by intro h; simp [pyTruthy] at h)]
  dsimp only
  simp only [secondPass_ofList]
  refine ⟨(addImagesLoop env none none l 0 c).ids, rfl, ?_, ?_⟩
  · rw [loop_ids_eq_map_docId, List.length_map, loop_batch_length]
  · intro id hid
    rw [loop_ids_eq_map_docId] at hid
    obtain ⟨w, hw, hwid⟩ := List.mem_map.mp hid
    exact ⟨⟨w, hw, hwid⟩, hwid ▸ isSome_getDoc_commitBatch_of_mem hw s⟩

/-- C4 witness: the statement evaluated on the one-image list ["a"]. -/
theorem C4_returned_ids_fetchable_witness :
    ∃ rids, (add_images defaultEnv 0 emptyStore (PyIter.ofList ["a"]) none none
        []).result = Except.ok rids ∧
      rids.length = (["a"] : List String).length ∧
      ∀ id ∈ rids,
        (∃ w ∈ (add_images defaultEnv 0 emptyStore (PyIter.ofList ["a"]) none none
          []).batch, w.docId = id) ∧
        (getDoc (add_images defaultEnv 0 emptyStore (PyIter.ofList ["a"]) none none
          []).store id).isSome = true :=
  C4_returned_ids_fetchable defaultEnv 0 emptyStore ["a"] [] (by decide)

/-- C5: when an id list and a metadata list matching the image count are
supplied, the returned id list is exactly the supplied one, and the write staged
at position i carries the i-th supplied metadata mapping in the metadata
field. -/
theorem C5_supplied_ids_and_metadata (env : Env) (c : Nat) (s : Store)
    (l L : List String) (M : List Metadata) (kw : List (String × String))
    (hn : l ≠ []) (hL : L.length = l.length) (hM : M.length = l.length) :
    (add_images env c s (PyIter.ofList l) (some M) (some L) kw).result =
      Except.ok L ∧
    ∀ i md, M.get? i = some md →
      ∃ w, (add_images env c s (PyIter.ofList l) (some M) (some L) kw).batch.get? i =
          some w ∧
        getField w.data env.metadata_field = some (FsValue.dict md) := by
  have hlpos : 0 < l.length := List.length_pos.mpr hn
  have hn' : (PyIter.ofList l).elems.length ≠ 0 := by
    simpa [PyIter.ofList, List.length_eq_zero] using hn
  have hT : pyTruthy (some L) = true := by
    cases L with
    | nil => simp at hL; omega
    | cons a L => simp [pyTruthy]
  have hTM : pyTruthy (some M) = true := by
    cases M with
    | nil => simp at hM; omega
    | cons a M => simp [pyTruthy]
  rw [add_images_ok env c s (PyIter.ofList l) (some M) (some L) kw hn'
    (by intro _; simpa [PyIter.ofList] using hM) (by intro _; simpa [PyIter.ofList] using hL)]
  dsimp only
  simp only [secondPass_ofList]
  constructor
  · rw [loop_ids_of_truthy env (some M) L hT l c hL]
  · intro i md hmd
    have hiM : i < M.length := (List.get?_eq_some.mp hmd).1
    have hil : i < l.length := by omega
    obtain ⟨p, hp⟩ : ∃ p, l.get? i = some p := ⟨_, List.get?_eq_get hil⟩
    rw [loop_batch_get?, hp]
    refine ⟨_, rfl, ?_⟩
    rw [getField_mkData_metadata]
    have hmd' : M[i]? = some md := by simpa using hmd
    simp [mdVal, hTM, hmd']

/-- C5 witness: two images, two supplied ids and two metadata mappings. -/
theorem C5_supplied_ids_and_metadata_witness :
    (add_images defaultEnv 0 emptyStore (PyIter.ofList ["a", "b"])
      (some [[("k", "1")], [("k", "2")]]) (some ["x", "y"]) []).result =
      Except.ok ["x", "y"] ∧
    ∀ i md, ([[("k", "1")], [("k", "2")]] : List Metadata).get? i = some md →
      ∃ w, (add_images defaultEnv 0 emptyStore (PyIter.ofList ["a", "b"])
          (some [[("k", "1")], [("k", "2")]]) (some ["x", "y"]) []).batch.get? i =
          some w ∧
        getField w.data defaultEnv.metadata_field = some (FsValue.dict md) :=
  C5_supplied_ids_and_metadata defaultEnv 0 emptyStore ["a", "b"] ["x", "y"]
    [[("k", "1")], [("k", "2")]] [] (by decide) (by decide) (by decide)

/-- C6: with no ids supplied, fresh injective auto-ids and pairwise-distinct
configured field names, add_images returns one identifier per image, pairwise
distinct, each denoting a document absent before the call and present after it
with the empty string in the content field and a vector in the embedding
field. -/
theorem C6_distinct_new_documents (env : Env) (c : Nat) (s : Store) (l : List String)
    (m : Option (List Metadata)) (kw : List (String × String)) (hn : l ≠ [])
    (hm : pyTruthy m = true → (m.getD []).length = l.length)
    (hinj : ∀ a b : Nat, env.auto_id a = env.auto_id b → a = b)
    (hfresh : ∀ k : Nat, getDoc s (env.auto_id k) = none)
    (hce : env.content_field ≠ env.embedding_field)
    (hcm : env.content_field ≠ env.metadata_field)
    (hem : env.embedding_field ≠ env.metadata_field) :
    ∃ rids, (add_images env c s (PyIter.ofList l) m none kw).result =
        Except.ok rids ∧
      rids.length = l.length ∧ rids.Nodup ∧
      ∀ id ∈ rids, getDoc s id = none ∧
        ∃ d, getDoc (add_images env c s (PyIter.ofList l) m none kw).store id = some d ∧
          getField d env.content_field = some (FsValue.str "") ∧
          ∃ v, getField d env.embedding_field = some (FsValue.vector v) := by
  have hn' : (PyIter.ofList l).elems.length ≠ 0 := by
    simpa [PyIter.ofList, List.length_eq_zero] using hn
  rw [add_images_ok env c s (PyIter.ofList l) m none kw hn'
    (by intro h; simpa [PyIter.ofList] using hm h) (by intro h; simp [pyTruthy] at h)]
  dsimp only
  simp only [secondPass_ofList]
  have hF : pyTruthy (none : Option (List String)) = false := rfl
  have hids := loop_ids_of_not_truthy env m none hF l 0 c
  have hndup : ((List.range l.length).map fun j => env.auto_id (c + j)).Nodup := by
    refine List.Nodup.map ?_ (List.nodup_range _)
    intro a b h
    have := hinj _ _ h
    omega
  refine ⟨_, rfl, ?_, ?_, ?_⟩
  · rw [hids, List.length_map, List.length_range]
  · rw [hids]; exact hndup
  · intro id hid
    rw [hids] at hid
    obtain ⟨j, hj, rfl⟩ := List.mem_map.mp hid
    refine ⟨hfresh _, ?_⟩
    have hjl : j < l.length := List.mem_range.mp hj
    obtain ⟨p, hp⟩ : ∃ p, l.get? j = some p := ⟨_, List.get?_eq_get hjl⟩
    have hw : (addImagesLoop env m none l 0 c).batch.get? j =
        some ⟨env.auto_id (c + j),
          mkData env (env.embed_image p) (mdVal m j), true⟩ := by
      rw [loop_batch_get?, hp]
      simp [hF]
    have hwmem : (⟨env.auto_id (c + j),
        mkData env (env.embed_image p) (mdVal m j), true⟩ : BatchWrite) ∈
        (addImagesLoop env m none l 0 c).batch := List.get?_mem hw
    have hnd : ((addImagesLoop env m none l 0 c).batch.map BatchWrite.docId).Nodup := by
      rw [← loop_ids_eq_map_docId, hids]; exact hndup
    have hmerge : ∀ w ∈ (addImagesLoop env m none l 0 c).batch, w.merge = true :=
      fun w hw' => (loop_batch_merge env m none l 0 c w hw').1
    have hcommit := getDoc_commitBatch_of_nodup hnd hmerge _ hwmem s
    rw [hfresh] at hcommit
    exact ⟨_, hcommit,
      getField_mergeData_mkData_content env _ _ _ hce hcm hem,
      _, getField_mergeData_mkData_embedding env _ _ _ hce hcm hem⟩

/-- C6 witness: the statement evaluated on three images with no metadata and no
ids (the spec's n = 3 instance). -/
theorem C6_distinct_new_documents_witness :
    ∃ rids, (add_images defaultEnv 0 emptyStore (PyIter.ofList ["a", "b", "c"]) none
        none []).result = Except.ok rids ∧
      rids.length = (["a", "b", "c"] : List String).length ∧ rids.Nodup ∧
      ∀ id ∈ rids, getDoc emptyStore id = none ∧
        ∃ d, getDoc (add_images defaultEnv 0 emptyStore (PyIter.ofList ["a", "b", "c"])
            none none []).store id = some d ∧
          getField d defaultEnv.content_field = some (FsValue.str "") ∧
          ∃ v, getField d defaultEnv.embedding_field = some (FsValue.vector v) :=
  C6_distinct_new_documents defaultEnv 0 emptyStore ["a", "b", "c"] none []
    (by decide) (by intro h; simp [pyTruthy] at h)
    (by
      intro a b h
      have h2 := congrArg (fun s => s.data.length) h
      simpa [defaultEnv] using h2)
    (fun _ => rfl) (by decide) (by decide) (by decide)

/-- C7: every staged record sets the configured content field to the empty
string, whatever the iterable and the metadata and id arguments are. -/
theorem C7_content_always_empty (env : Env) (c : Nat) (s : Store) (it : PyIter)
    (m : Option (List Metadata)) (ids : Option (List String))
    (kw : List (String × String))
    (hce : env.content_field ≠ env.embedding_field)
    (hcm : env.content_field ≠ env.metadata_field) :
    ∀ w ∈ (add_images env c s it m ids kw).batch,
      getField w.data env.content_field = some (FsValue.str "") := by
  intro w hw
  obtain ⟨j, p, hp, rfl⟩ := add_images_batch_mem env c s it m ids kw w hw
  exact getField_mkData_content env _ _ hce hcm

/-- C7 witness: the statement evaluated on one image with a metadata mapping and
a supplied id, at the concrete record that call stages. -/
theorem C7_content_always_empty_witness :
    getField [("content", FsValue.str ""), ("embedding", FsValue.vector [1]),
      ("metadata", FsValue.dict [("k", "v")])] defaultEnv.content_field =
      some (FsValue.str "") :=
  C7_content_always_empty defaultEnv 0 emptyStore (PyIter.ofList ["a"])
    (some [[("k", "v")]]) (some ["x"]) [] (by decide) (by decide)
    ⟨"x", [("content", FsValue.str ""), ("embedding", FsValue.vector [1]),
      ("metadata", FsValue.dict [("k", "v")])], true⟩ (by decide)

/-- C8 counterexample: a successful call on a one-shot iterator yielding two
images performs no embedding call at all — its event trace is just the commit —
so the call does not make one embedding call per supplied image. -/
theorem C8_counterexample :
    (PyIter.gen ["a", "b"]).elems.length = 2 ∧
    (add_images defaultEnv 0 emptyStore (PyIter.gen ["a", "b"]) none none []).result =
      Except.ok [] ∧
    (add_images defaultEnv 0 emptyStore (PyIter.gen ["a", "b"]) none none []).events =
      [Event.commit] := by
  decide

/-- C8 (amended): on every successful call on a re-iterable iterable, the event
trace contains exactly one embedding call per image, in input order, exactly one
commit, the commit is the last event, and the staging events are exactly the
staged writes in batch order (so the commit happens after all staging). -/
theorem C8_event_trace (env : Env) (c : Nat) (s : Store) (l : List String)
    (m : Option (List Metadata)) (ids : Option (List String))
    (kw : List (String × String)) (rids : List String)
    (hok : (add_images env c s (PyIter.ofList l) m ids kw).result = Except.ok rids) :
    (add_images env c s (PyIter.ofList l) m ids kw).events.filter Event.isEmbed =
      l.map Event.embedImage ∧
    (add_images env c s (PyIter.ofList l) m ids kw).events.count Event.commit = 1 ∧
    (add_images env c s (PyIter.ofList l) m ids kw).events.getLast? =
      some Event.commit ∧
    (add_images env c s (PyIter.ofList l) m ids kw).events.filter Event.isStage =
      (add_images env c s (PyIter.ofList l) m ids kw).batch.map Event.stageSet := by
  by_cases h0 : (PyIter.ofList l).elems.length = 0
  · rw [add_images_err_empty env c s (PyIter.ofList l) m ids kw h0] at hok
    cases hok
  · by_cases hb : pyTruthy m = true ∧ (m.getD []).length ≠ (PyIter.ofList l).elems.length
    · rw [add_images_err_md env c s (PyIter.ofList l) m ids kw h0 hb.1 hb.2] at hok
      cases hok
    · have hm : pyTruthy m = true → (m.getD []).length = (PyIter.ofList l).elems.length := by
        intro hp
        by_contra hne
        exact hb ⟨hp, hne⟩
      by_cases hc : pyTruthy ids = true ∧
          (ids.getD []).length ≠ (PyIter.ofList l).elems.length
      · rw [add_images_err_ids env c s (PyIter.ofList l) m ids kw h0 hm hc.1 hc.2] at hok
        cases hok
      · have hi : pyTruthy ids = true →
            (ids.getD []).length = (PyIter.ofList l).elems.length := by
          intro hp
          by_contra hne
          exact hc ⟨hp, hne⟩
        rw [add_images_ok env c s (PyIter.ofList l) m ids kw h0 hm hi]
        dsimp only
        simp only [secondPass_ofList]
        refine ⟨?_, ?_, ?_, ?_⟩
        · rw [List.filter_append, loop_events_filter_embed]
          simp [Event.isEmbed]
        · rw [List.count_append,
            List.count_eq_zero.mpr (loop_events_no_commit env m ids l 0 c)]
          simp
        · exact List.getLast?_concat _
        · rw [List.filter_append, loop_events_filter_stage]
          simp [Event.isStage]

/-- C8 witness: the trace properties evaluated on the successful one-image
call. -/
theorem C8_event_trace_witness :
    (add_images defaultEnv 0 emptyStore (PyIter.ofList ["ab"]) none none
      []).events.filter Event.isEmbed = (["ab"] : List String).map Event.embedImage ∧
    (add_images defaultEnv 0 emptyStore (PyIter.ofList ["ab"]) none none
      []).events.count Event.commit = 1 ∧
    (add_images defaultEnv 0 emptyStore (PyIter.ofList ["ab"]) none none
      []).events.getLast? = some Event.commit ∧
    (add_images defaultEnv 0 emptyStore (PyIter.ofList ["ab"]) none none
      []).events.filter Event.isStage =
      (add_images defaultEnv 0 emptyStore (PyIter.ofList ["ab"]) none none
        []).batch.map Event.stageSet :=
  C8_event_trace defaultEnv 0 emptyStore ["ab"] none none []
    (addImagesLoop defaultEnv none none ["ab"] 0 0).ids (by decide)

/-- C10: the extension keyword arguments are never read: two calls that agree on
everything except kwargs have identical outcomes — same staged writes, same
returned ids, same events, same final store. -/
theorem C10_kwargs_no_effect (env : Env) (c : Nat) (s : Store) (it : PyIter)
    (m : Option (List Metadata)) (ids : Option (List String))
    (kw1 kw2 : List (String × String)) :
    add_images env c s it m ids kw1 = add_images env c s it m ids kw2 := rfl

end ImageVS
